import Mathlib

/-!
Verification of the SHL assessment-recommendation engine against its design
specification.  The Python sources (`src/indexer.py`, `src/retriever.py`,
`src/api_fastapi.py`) are shallowly embedded below: machine floats are
modelled as exact rationals, numpy/pandas/faiss library calls are modelled
by their documented semantics, and the sentence-transformer embedding model
is treated as an opaque function from text to a vector, selected from a
registry by model name.
-/

namespace SHL

/-! ## Regex primitives for `extract_duration_window` (api_fastapi.py:43-70)

The two patterns used by the source are
`(\d+)\s*-\s*(\d+)\s*(hour|hr|hours|hrs|minute|min|minutes)\b` and
`(\d+)\s*(hour|hr|hours|hrs|minute|min|minutes)\b`, applied with `re.search`
to the lowercased query.  For these patterns backtracking is never
productive (each `\d+`/`\s*` is followed by a token that cannot overlap with
it), so maximal-munch scanning from each start position, with the
alternation tried left to right under the trailing word-boundary check, is
an exact model.  Character classes are modelled over ASCII. -/

/-- Characters of the regex class `\s` (ASCII subset). -/
def isSpaceRe (c : Char) : Bool :=
  c = ' ' || c = '\t' || c = '\n' || c = '\r' || c = '\x0b' || c = '\x0c'

/-- Word characters for the regex `\b` boundary check: `[A-Za-z0-9_]`. -/
def isWordChar (c : Char) : Bool :=
  ('a' ≤ c && c ≤ 'z') || ('A' ≤ c && c ≤ 'Z') || ('0' ≤ c && c ≤ '9') || c = '_'

/-- Characters of the regex class `\d` (ASCII digits). -/
def isAsciiDigit (c : Char) : Bool := '0' ≤ c && c ≤ '9'

/-- Characters of the regex class `[a-zA-Z]`. -/
def isAsciiAlpha (c : Char) : Bool := ('a' ≤ c && c ≤ 'z') || ('A' ≤ c && c ≤ 'Z')

/-- Numeric value of a digit run, as Python `int()` of a matched group. -/
def natOfDigits (ds : List Char) : Nat := ds.foldl (fun n c => 10 * n + (c.toNat - 48)) 0

/-- Maximal-munch `\d+`: the parsed value and the remaining input. -/
def takeDigits (s : List Char) : Option (Nat × List Char) :=
  match s.takeWhile isAsciiDigit with
  | [] => none
  | ds => some (natOfDigits ds, s.dropWhile isAsciiDigit)

/-- Maximal-munch `\s*`. -/
def skipSpaces (s : List Char) : List Char := s.dropWhile isSpaceRe

/-- Python substring test `pat in s`. -/
def containsSub (pat : List Char) : List Char → Bool
  | [] => pat.isEmpty
  | c :: t => pat.isPrefixOf (c :: t) || containsSub pat t

/-- The unit alternation of both duration regexes, in source order. -/
def unitAlts : List (List Char) :=
  ["hour", "hr", "hours", "hrs", "minute", "min", "minutes"].map String.data

/-- The `\b` boundary after a unit token (units end in a word character). -/
def boundaryOk : List Char → Bool
  | [] => true
  | c :: _ => !isWordChar c

/-- Leftmost-alternative unit match followed by the word boundary. -/
def matchUnit (s : List Char) : Option (List Char) :=
  unitAlts.findSome? fun u =>
    if u.isPrefixOf s && boundaryOk (s.drop u.length) then some u else none

/-- The range pattern anchored at this start position. -/
def matchRangeAt (s : List Char) : Option (Nat × Nat × List Char) := do
  let (a, s1) ← takeDigits s
  match skipSpaces s1 with
  | '-' :: s2 =>
    let (b, s3) ← takeDigits (skipSpaces s2)
    let u ← matchUnit (skipSpaces s3)
    pure (a, b, u)
  | _ => none

/-- The single-value pattern anchored at this start position. -/
def matchSingleAt (s : List Char) : Option (Nat × List Char) := do
  let (v, s1) ← takeDigits s
  let u ← matchUnit (skipSpaces s1)
  pure (v, u)

/-- `re.search` for the range pattern: first matching start position. -/
def scanRange : List Char → Option (Nat × Nat × List Char)
  | [] => none
  | c :: t => (matchRangeAt (c :: t)).orElse fun _ => scanRange t

/-- `re.search` for the single-value pattern. -/
def scanSingle : List Char → Option (Nat × List Char)
  | [] => none
  | c :: t => (matchSingleAt (c :: t)).orElse fun _ => scanSingle t

/-- The substring the source tests with `"hour" in unit`. -/
def hourSub : List Char := "hour".data

/-- Model of `extract_duration_window` (api_fastapi.py:43-70): lowercase the
text, try the range pattern first, then the single-value pattern, else no
window.  Note the source multiplies by 60 only when the matched unit token
contains the substring `"hour"`, which is false for `hr` and `hrs`. -/
def extract_duration_window (text : String) : Option (Int × Int) :=
  let t := text.data.map Char.toLower
  match scanRange t with
  | some (a, b, u) =>
    let a := if containsSub hourSub u then a * 60 else a
    let b := if containsSub hourSub u then b * 60 else b
    some ((min a b : Nat), (max a b : Nat))
  | none =>
    match scanSingle t with
    | some (v, u) =>
      let v := if containsSub hourSub u then v * 60 else v
      some (max 0 ((v : Int) - 15), (v : Int) + 15)
    | none => none

/-! ## Keyword extraction (api_fastapi.py:72-80) -/

/-- Helper for `tokenizeAlpha`: `acc` is the current alphabetic run, reversed. -/
def tokenizeAux : List Char → List Char → List String
  | [], acc => if acc.isEmpty then [] else [String.mk acc.reverse]
  | c :: t, acc =>
    if isAsciiAlpha c then tokenizeAux t (c :: acc)
    else if acc.isEmpty then tokenizeAux t []
    else String.mk acc.reverse :: tokenizeAux t []

/-- `re.findall("[a-zA-Z]+", q)`: the maximal alphabetic runs, in order. -/
def tokenizeAlpha (s : List Char) : List String := tokenizeAux s []

/-- Python `str.lower` (ASCII). -/
def lowerStr (s : String) : String := String.mk (s.data.map Char.toLower)

/-- The fixed whitelist of strong terms (api_fastapi.py:75-79). -/
def whitelist : List String :=
  ["python", "sql", "excel", "powerbi", "tableau", "r",
   "statistics", "statistical", "developer", "engineer", "analyst", "data", "qa",
   "testing", "automation", "communication", "stakeholder", "manager", "sales",
   "marketing", "java", "javascript"]

/-- Model of `strong_terms_from_query` (api_fastapi.py:72-80). -/
def strong_terms_from_query (q : String) : List String :=
  ((tokenizeAlpha q.data).map lowerStr).filter fun w => whitelist.contains w

/-! ## Catalog rows and per-row scoring -/

/-- A metadata row, the `SAFE_COLS` of indexer.py:29-32.  Optional string
fields are normalized to the empty string as in the source; `duration_min`
is an optional number (`none` models a missing/NaN cell). -/
structure CatalogRow where
  assessment_id : String := ""
  title : String := ""
  url : String := ""
  description : String := ""
  category : String := ""
  test_type : String := ""
  level : String := ""
  duration_min : Option ℚ := none
  language : String := ""
  tags : String := ""
  deriving DecidableEq

/-- A search result row: a metadata row plus the `similarity` column that
`search` attaches (retriever.py:32). -/
structure RankedRow where
  record : CatalogRow
  similarity : ℚ
  deriving DecidableEq

/-- The concatenated searchable text of the keyword gate
(api_fastapi.py:111): title, description, tags, category joined by single
spaces, lowercased. -/
def rowText (r : CatalogRow) : String :=
  lowerStr (r.title ++ " " ++ r.description ++ " " ++ r.tags ++ " " ++ r.category)

/-- Model of the inner `on_topic` predicate (api_fastapi.py:110-112). -/
def on_topic (strong : List String) (r : CatalogRow) : Bool :=
  strong.any fun k => containsSub k.data (rowText r).data

/-- The keyword gate stage of `recommend` (api_fastapi.py:108-113): applied
only when the strong-term list is non-empty. -/
def keywordGate (strong : List String) (rows : List RankedRow) : List RankedRow :=
  if strong.isEmpty then rows else rows.filter fun rr => on_topic strong rr.record

/-- The per-row duration score of `recommend` (api_fastapi.py:115-132):
`0` when no window was extracted (the `else` branch assigning `0.0`), `0`
for a missing duration, and otherwise the clamped linear falloff around the
window center. -/
def dur_score (win : Option (Int × Int)) (d : Option ℚ) : ℚ :=
  match win with
  | none => 0
  | some (lo, hi) =>
    match d with
    | none => 0
    | some d =>
      max 0 (1 - |d - ((lo : ℚ) + (hi : ℚ)) / 2| / max 15 (((hi : ℚ) - (lo : ℚ)) / 2))

/-- The fused ranking key (api_fastapi.py:136). -/
def finalScore (sim dfit : ℚ) : ℚ := (0.85 : ℚ) * sim + (0.15 : ℚ) * dfit

/-- The `topk` recovery at the serving boundary (api_fastapi.py:102):
`max(1, min(10, int(inp.topk or 10)))`; note Python `or` replaces a zero
(falsy) value by the default `10` before clamping. -/
def clampTopk (k : Int) : Int := max 1 (min 10 (if k = 0 then 10 else k))

/-- Python `str.strip()` (ASCII whitespace). -/
def pyStrip (s : String) : String :=
  String.mk (((s.data.dropWhile isSpaceRe).reverse.dropWhile isSpaceRe).reverse)

/-! ## The faiss flat inner-product index

`faiss.IndexFlatIP` stores the added vectors row by row and `search`
exhaustively computes inner products, returning the `k` best in descending
order.  When `k` exceeds the number of stored vectors, faiss fills the
missing slots with id `-1` and distance `lowest float` (`-FLT_MAX`).  Ties
are returned in ascending-id order in this model.  The Python wrapper of
`search` asserts that the query dimension equals `index.d`. -/

/-- The exact value of `FLT_MAX`, the sentinel magnitude faiss uses to pad
missing neighbours. -/
def fltMax : ℚ := 340282346638528859811704183484516925440

/-- Inner product of two vectors (zip semantics; all vectors in a bundle
share one dimension). -/
def dot (a b : List ℚ) : ℚ := ((a.zip b).map fun p => p.1 * p.2).sum

/-- The stored state of `faiss.IndexFlatIP`: dimension and row-major data. -/
structure FaissFlatIP where
  d : Nat
  xb : List (List ℚ)
  deriving DecidableEq

/-- Result order of the flat-index scan: larger inner product first, ties by
ascending id. -/
def rankR (a b : Int × ℚ) : Prop := b.2 < a.2 ∨ (a.2 = b.2 ∧ a.1 ≤ b.1)

instance : DecidableRel rankR := fun a b =>
  inferInstanceAs (Decidable (b.2 < a.2 ∨ (a.2 = b.2 ∧ a.1 ≤ b.1)))

instance : IsTotal (Int × ℚ) rankR :=
  ⟨by
    intro a b
    unfold rankR
    rcases lt_trichotomy a.2 b.2 with h | h | h
    · exact Or.inr (Or.inl h)
    · rcases le_total a.1 b.1 with h1 | h1
      · exact Or.inl (Or.inr ⟨h, h1⟩)
      · exact Or.inr (Or.inr ⟨h.symm, h1⟩)
    · exact Or.inl (Or.inl h)⟩

instance : IsTrans (Int × ℚ) rankR :=
  ⟨by
    intro a b c hab hbc
    unfold rankR at *
    rcases hab with h1 | ⟨h1, h1i⟩
    · rcases hbc with h2 | ⟨h2, _⟩
      · exact Or.inl (h2.trans h1)
      · exact Or.inl (h2 ▸ h1)
    · rcases hbc with h2 | ⟨h2, h2i⟩
      · exact Or.inl (h1 ▸ h2)
      · exact Or.inr ⟨h1.trans h2, h1i.trans h2i⟩⟩

/-- The id/inner-product pairs of the exhaustive scan, in storage order. -/
def simList (xb : List (List ℚ)) (q : List ℚ) : List (Int × ℚ) :=
  (List.range xb.length).map fun (i : Nat) => ((i : Int), dot q (xb.getD i []))

/-- Model of `faiss.IndexFlatIP.search` on one query: the `k` best pairs in
descending similarity order, padded to length `k` with `(-1, -FLT_MAX)`
when fewer than `k` vectors are stored. -/
def faissTopk (xb : List (List ℚ)) (q : List ℚ) (k : Nat) : List (Int × ℚ) :=
  let top := (List.insertionSort rankR (simList xb q)).take k
  top ++ List.replicate (k - top.length) ((-1 : Int), -fltMax)

/-! ## Index builder (indexer.py) and retriever (retriever.py)

The embedding model is a registry `encodeOf : String → String → List ℚ`
mapping a model name and a text to a vector (`SentenceTransformer(name)`
followed by `encode` with normalized embeddings).  Python float formatting
of the duration field inside the document template is abstracted as a
`render` function. -/

/-- Model of `build_doc` (indexer.py:40-50) with `sg` absent-field handling:
string fields are already normalized to `""`, a missing duration renders as
the empty string. -/
def build_doc (render : ℚ → String) (r : CatalogRow) : String :=
  "Assessment Name: " ++ r.title ++ ". " ++
  "Category: " ++ r.category ++ ". " ++
  "Type: " ++ r.test_type ++ ". " ++
  "Level: " ++ r.level ++ ". " ++
  "Duration: " ++ (match r.duration_min with | none => "" | some d => render d) ++
  " minutes. " ++
  "Language: " ++ r.language ++ ". " ++
  "Tags: " ++ r.tags ++ ". " ++
  "Description: " ++ r.description ++ ". "

/-- Everything `main` (indexer.py:52-83) writes to disk: `faiss.index`,
`vectors.npy` and `meta.parquet`.  The source writes nothing else (the
model name appears only in a log line). -/
structure SavedBundle where
  faiss_index : FaissFlatIP
  vectors : List (List ℚ)
  meta : List CatalogRow
  deriving DecidableEq

/-- Model of the index builder `main` (indexer.py:52-83): reject an empty
catalog, synthesize one document per row, embed them in order, build a flat
inner-product index over the matrix, and save index, vectors and the
metadata table. -/
def buildArtifacts (encodeOf : String → String → List ℚ) (render : ℚ → String)
    (model_name : String) (catalog : List CatalogRow) : Except String SavedBundle :=
  if catalog.isEmpty then .error "Catalog is empty" else
    let docs := catalog.map (build_doc render)
    let X := docs.map (encodeOf model_name)
    let d := (X.headD []).length
    .ok { faiss_index := { d := d, xb := X }, vectors := X, meta := catalog }

/-- The in-memory bundle of retriever.py:13-18. -/
structure IndexBundle where
  index : FaissFlatIP
  vectors : List (List ℚ)
  meta : List CatalogRow
  model : String
  deriving DecidableEq

/-- Model of `load_index` (retriever.py:20-25): read the three artifacts and
instantiate the model by the caller-supplied name.  No compatibility check
of any kind is performed. -/
def load_index (saved : SavedBundle) (model_name : String) : IndexBundle :=
  { index := saved.faiss_index, vectors := saved.vectors, meta := saved.meta,
    model := model_name }

/-- A row of all-absent fields, the `getD` fallback (never reached for the
indices faiss actually returns over a non-empty catalog). -/
def defaultRow : CatalogRow := {}

/-- Pandas positional indexing `meta.iloc[i]` for a single integer: a
negative index counts from the end, so `-1` is the last row. -/
def ilocRow (meta : List CatalogRow) (i : Int) : CatalogRow :=
  if 0 ≤ i then meta.getD i.toNat defaultRow
  else meta.getD (meta.length - (-i).toNat) defaultRow

/-- Model of `search` (retriever.py:27-33) after the dimension assertion:
run the index scan and join each returned id back to the metadata table,
attaching the returned distance as the `similarity` column. -/
def searchRows (encodeOf : String → String → List ℚ) (bundle : IndexBundle)
    (query : String) (k : Nat) : List RankedRow :=
  (faissTopk bundle.index.xb (encodeOf bundle.model query) k).map
    fun p => { record := ilocRow bundle.meta p.1, similarity := p.2 }

/-- Model of `search` (retriever.py:27-33) including the dimension assertion
raised by the faiss wrapper when the encoded query does not match the index
dimension. -/
def search (encodeOf : String → String → List ℚ) (bundle : IndexBundle)
    (query : String) (k : Nat) : Except String (List RankedRow) :=
  if (encodeOf bundle.model query).length = bundle.index.d then
    .ok (searchRows encodeOf bundle query k)
  else .error "query dimension does not match index dimension"

/-! ## The `/recommend` endpoint (api_fastapi.py:93-156) -/

/-- The final sort `df.sort_values("_final", ascending=False)`
(api_fastapi.py:137), modelled as a stable descending sort on the fused
score.  Pandas implements descending order by reversing the rows, taking an
ascending argsort and reversing the result, which preserves the original
relative order of exact ties whenever the underlying argsort is stable;
a stable insertion sort on the pairs realizes the same function.  (The
default numpy argsort kind is only guaranteed stable in its small-array
insertion-sort regime; see the discussion of claim C7.) -/
def finRel (a b : RankedRow × ℚ) : Prop := b.2 ≤ a.2

instance : DecidableRel finRel := fun a b => inferInstanceAs (Decidable (b.2 ≤ a.2))

def sortFinalDesc (l : List (RankedRow × ℚ)) : List (RankedRow × ℚ) :=
  List.insertionSort finRel l

/-- Model of the `recommend` endpoint (api_fastapi.py:93-156) given a loaded
bundle: validate the query, recover `topk`, retrieve a pool of `topk * 4`
candidates, apply the keyword gate, attach duration scores, fuse, sort
descending and truncate to `topk`.  Errors carry the HTTP status code: 400
for an empty query, 500 for an exception escaping the handler (the faiss
dimension assertion). -/
def recommend (encodeOf : String → String → List ℚ) (bundle : IndexBundle)
    (query : String) (topk0 : Int) : Except Nat (List RankedRow) :=
  let q := pyStrip query
  if q = "" then .error 400 else
  let topk := (clampTopk topk0).toNat
  match search encodeOf bundle q (topk * 4) with
  | .error _ => .error 500
  | .ok df0 =>
    let df1 := keywordGate (strong_terms_from_query q) df0
    let win := extract_duration_window q
    let scored := df1.map fun rr => (rr, dur_score win rr.record.duration_min)
    let fin := scored.map fun p => (p.1, finalScore p.1.similarity p.2)
    .ok (((sortFinalDesc fin).take topk).map Prod.fst)

/-! ## Concrete instances used to exercise the model -/

/-- A sample catalog record. -/
def rowA : CatalogRow := { title := "Verify Numerical", url := "https://example.com/a" }

/-- A second sample catalog record, distinct from `rowA`. -/
def rowB : CatalogRow := { title := "OPQ Personality", url := "https://example.com/b" }

/-- A duration renderer for the document template. -/
def renderQ : ℚ → String := fun _ => ""

/-- A one-dimensional embedding registry. -/
def encOne : String → String → List ℚ := fun _ _ => [1]

/-- A two-dimensional embedding registry that ignores the model name. -/
def encConst2 : String → String → List ℚ := fun _ _ => [1, 0]

/-- A registry in which models `A` and `B` are different two-dimensional
embedders. -/
def encReg : String → String → List ℚ := fun name _ => if name = "A" then [1, 0] else [0, 1]

/-- A one-dimensional embedder, dimension-incompatible with `savedA`. -/
def encMis : String → String → List ℚ := fun _ _ => [1]

/-- An embedder that recognizes the document of `rowA`. -/
def encTwo : String → String → List ℚ :=
  fun _ s => if s = build_doc renderQ rowA then [1, 0] else [0, 1]

/-- The artifacts of building `[rowA]` under `encOne`. -/
def savedOne : SavedBundle :=
  { faiss_index := { d := 1, xb := [[1]] }, vectors := [[1]], meta := [rowA] }

/-- The artifacts of building `[rowA]` under a two-dimensional embedder. -/
def savedA : SavedBundle :=
  { faiss_index := { d := 2, xb := [[1, 0]] }, vectors := [[1, 0]], meta := [rowA] }

/-- The artifacts of building `[rowA, rowB]` under `encTwo`. -/
def savedTwo : SavedBundle :=
  { faiss_index := { d := 2, xb := [[1, 0], [0, 1]] },
    vectors := [[1, 0], [0, 1]], meta := [rowA, rowB] }

/-- An empty loaded bundle (used only to show query validation precedes
every use of the bundle). -/
def emptyBundle : IndexBundle :=
  { index := { d := 0, xb := [] }, vectors := [], meta := [], model := "m" }

/-! ## Helper lemmas -/

/-- Characterization of a successful build: the saved metadata is the
catalog and the saved index holds one embedded document per row, in order. -/
theorem buildArtifacts_ok {encodeOf : String → String → List ℚ} {render : ℚ → String}
    {name : String} {catalog : List CatalogRow} {saved : SavedBundle}
    (h : buildArtifacts encodeOf render name catalog = .ok saved) :
    saved.meta = catalog ∧
    saved.faiss_index.xb = catalog.map fun r => encodeOf name (build_doc render r) := by
  unfold buildArtifacts at h
  split at h
  · exact absurd h (by simp)
  · rw [Except.ok.injEq] at h
    subst h
    exact ⟨rfl, by simp [List.map_map]⟩

/-- Membership in the id/similarity list of the exhaustive scan. -/
theorem mem_simList {xb : List (List ℚ)} {q : List ℚ} {p : Int × ℚ} (h : p ∈ simList xb q) :
    ∃ j : Nat, j < xb.length ∧ p = ((j : Int), dot q (xb.getD j [])) := by
  simp only [simList, List.mem_map, List.mem_range] at h
  obtain ⟨j, hj, rfl⟩ := h
  exact ⟨j, hj, rfl⟩

/-- Every stored row index appears in the scan list. -/
theorem simList_mem {xb : List (List ℚ)} {q : List ℚ} {j : Nat} (hj : j < xb.length) :
    ((j : Int), dot q (xb.getD j [])) ∈ simList xb q := by
  simp only [simList, List.mem_map, List.mem_range]
  exact ⟨j, hj, rfl⟩

/-- When row `i` is the strict inner-product maximizer, the scan returns it
first. -/
theorem faissTopk_head {xb : List (List ℚ)} {q : List ℚ} {k i : Nat}
    (hi : i < xb.length) (hk : 1 ≤ k)
    (hmax : ∀ j, j < xb.length → j ≠ i → dot q (xb.getD j []) < dot q (xb.getD i [])) :
    (faissTopk xb q k).head? = some ((i : Int), dot q (xb.getD i [])) := by
  have hperm : (List.insertionSort rankR (simList xb q)).Perm (simList xb q) :=
    List.perm_insertionSort _ _
  have hsorted : (List.insertionSort rankR (simList xb q)).Sorted rankR :=
    List.sorted_insertionSort _ _
  have hlen : (List.insertionSort rankR (simList xb q)).length = xb.length := by
    rw [hperm.length_eq]; simp [simList]
  obtain ⟨h, t, hht⟩ : ∃ h t, List.insertionSort rankR (simList xb q) = h :: t := by
    cases hc : List.insertionSort rankR (simList xb q) with
    | nil => rw [hc] at hlen; simp at hlen; omega
    | cons a l => exact ⟨a, l, rfl⟩
  have hhmem : h ∈ simList xb q := hperm.mem_iff.mp (by rw [hht]; exact List.mem_cons_self _ _)
  obtain ⟨j, hj, hjh⟩ := mem_simList hhmem
  have himem : ((i : Int), dot q (xb.getD i [])) ∈ h :: t := by
    rw [← hht]
    exact hperm.mem_iff.mpr (simList_mem hi)
  have hji : j = i := by
    by_contra hne
    have hlt : dot q (xb.getD j []) < dot q (xb.getD i []) := hmax j hj hne
    rcases List.mem_cons.mp himem with heq | hmem
    · rw [hjh] at heq
      have hcast : (i : Int) = (j : Int) := congrArg Prod.fst heq
      exact hne (Nat.cast_injective hcast).symm
    · have hrel : rankR h ((i : Int), dot q (xb.getD i [])) := by
        rw [hht] at hsorted
        exact (List.sorted_cons.mp hsorted).1 _ hmem
      rw [hjh] at hrel
      rcases hrel with hgt | ⟨heq, _⟩
      · exact absurd hgt (not_lt_of_lt hlt)
      · exact (ne_of_lt hlt) heq
  subst hji
  unfold faissTopk
  rw [hht]
  cases k with
  | zero => omega
  | succ k => simp [List.take_succ_cons, hjh]

/-- In-bounds `getD` commutes with `map`. -/
theorem getD_map_of_lt {α β : Type} (f : α → β) (l : List α) (i : Nat) (h : i < l.length)
    (d : α) (d2 : β) : (l.map f).getD i d2 = f (l.getD i d) := by
  rw [List.getD_eq_getElem?_getD, List.getD_eq_getElem?_getD, List.getElem?_map,
    List.getElem?_eq_getElem h]
  simp

/-- The keyword gate only removes rows. -/
theorem keywordGate_subset (strong : List String) (rows : List RankedRow) :
    keywordGate strong rows ⊆ rows := by
  unfold keywordGate
  split
  · exact fun _ h => h
  · exact fun x hx => (List.mem_filter.mp hx).1

/-! ## Claim theorems -/

/-- C1: with a catalog of a single record, a built and loaded bundle
searched at top_n = 2 returns two rows, both carrying the same catalog
record: faiss pads the missing neighbour with id `-1` and pandas `iloc[-1]`
resolves it to the last metadata row, so the result is padded with a
duplicate instead of having fewer rows than top_n. -/
theorem C1_search_pads_with_duplicates :
    buildArtifacts encOne renderQ "model" [rowA] = .ok savedOne ∧
    (searchRows encOne (load_index savedOne "model") "any query" 2).length = 2 ∧
    (searchRows encOne (load_index savedOne "model") "any query" 2).map RankedRow.record =
      [rowA, rowA] := by
  refine ⟨rfl, ?_, ?_⟩ <;>
    norm_num [searchRows, faissTopk, simList, dot, List.range_succ, List.insertionSort,
      List.orderedInsert, ilocRow, load_index, savedOne, encOne]

/-- C2 counterexample: the builder's on-disk artifacts are identical for two
different model identifiers (so no identifier is persisted), and a bundle
built with model `A` and loaded under model `B` of the same dimension
serves its first query without any error, returning a meaningless
similarity — the silent degradation the claim says cannot happen. -/
theorem C2_counterexample :
    buildArtifacts encConst2 renderQ "model-A" [rowA] =
      buildArtifacts encConst2 renderQ "model-B" [rowA] ∧
    buildArtifacts encReg renderQ "A" [rowA] = .ok savedA ∧
    search encReg (load_index savedA "B") "any query" 1 =
      .ok [{ record := rowA, similarity := 0 }] := by
  refine ⟨rfl, rfl, ?_⟩
  have hba : ¬(("B" : String) = "A") := by decide
  norm_num [search, searchRows, load_index, savedA, encReg, hba, faissTopk, simList, dot,
    List.range_succ, List.insertionSort, List.orderedInsert, ilocRow]

/-- C2 (amended): the builder persists the index, vector matrix and
metadata only — its output does not depend on the model identifier beyond
the embedding function it selects; loading performs no compatibility check
and always succeeds for any model name; only a vector-dimension mismatch
fails (at first query, from the faiss assertion), while a same-dimension
query is served without error regardless of which model the bundle was
built with. -/
theorem C2_amended_no_identifier :
    (∀ (encodeOf : String → String → List ℚ) (render : ℚ → String) (n1 n2 : String)
      (catalog : List CatalogRow), (∀ s, encodeOf n1 s = encodeOf n2 s) →
        buildArtifacts encodeOf render n1 catalog = buildArtifacts encodeOf render n2 catalog) ∧
    (∀ (saved : SavedBundle) (name : String),
      load_index saved name =
        { index := saved.faiss_index, vectors := saved.vectors, meta := saved.meta,
          model := name }) ∧
    (∀ (encodeOf : String → String → List ℚ) (bundle : IndexBundle) (q : String) (k : Nat),
      (encodeOf bundle.model q).length ≠ bundle.index.d →
        ∃ msg, search encodeOf bundle q k = .error msg) ∧
    (∀ (encodeOf : String → String → List ℚ) (bundle : IndexBundle) (q : String) (k : Nat),
      (encodeOf bundle.model q).length = bundle.index.d →
        search encodeOf bundle q k = .ok (searchRows encodeOf bundle q k)) := by
  refine ⟨fun encodeOf render n1 n2 catalog h => ?_, fun saved name => rfl,
    fun encodeOf bundle q k h => ⟨_, by unfold search; rw [if_neg h]⟩,
    fun encodeOf bundle q k h => by unfold search; rw [if_pos h]⟩
  unfold buildArtifacts
  split
  · rfl
  · have hX : List.map (encodeOf n1) (List.map (build_doc render) catalog) =
        List.map (encodeOf n2) (List.map (build_doc render) catalog) :=
      List.map_congr_left fun a _ => h a
    simp only [hX]

/-- C2 amended witness: concrete builds with two names coincide, and a
concrete dimension mismatch is rejected at query time. -/
theorem C2_amended_no_identifier_witness :
    buildArtifacts encConst2 renderQ "x" [rowA] = buildArtifacts encConst2 renderQ "y" [rowA] ∧
    ∃ msg, search encMis (load_index savedA "B") "query" 3 = .error msg := by
  constructor
  · exact C2_amended_no_identifier.1 encConst2 renderQ "x" "y" [rowA] fun s => rfl
  · exact C2_amended_no_identifier.2.2.1 encMis (load_index savedA "B") "query" 3 (by decide)

/-- C3: evaluation of duration extraction.  The units `hr` and `hrs` are
matched by the regex but fail the `"hour" in unit` substring test, so they
are not converted to minutes: `"1 hr"` yields `(0, 16)` (the claim's
hour-family conversion would give `(45, 75)`) and `"1-2 hrs"` yields
`(1, 2)` (the claim would give `(60, 120)`).  The spellings `hour`,
`hours`, `min`, `minutes` behave as the claim states, and a query with no
duration expression yields no window. -/
theorem C3_hour_abbreviations_not_converted :
    extract_duration_window "1 hr" = some (0, 16) ∧
    extract_duration_window "1-2 hrs" = some (1, 2) ∧
    extract_duration_window "about 60 min" = some (45, 75) ∧
    extract_duration_window "1-2 hours" = some (60, 120) ∧
    extract_duration_window "45-60 minutes" = some (45, 60) ∧
    extract_duration_window "no time mentioned here" = none := by decide

/-- C4: the duration-fit score equals the clamped triangular falloff
`max 0 (1 - |d - center| / tolerance)` with `center = (lo+hi)/2` and
`tolerance = max 15 ((hi-lo)/2)` whenever a window and a duration are
present; a missing duration or an absent window scores 0; and on window
`(45, 75)` the durations 60, 75, 90 and 52.5 score 1, 0, 0 (clamped, not
negative) and 1/2 respectively. -/
theorem C4_duration_fit :
    (∀ (lo hi : Int) (d : ℚ),
      dur_score (some (lo, hi)) (some d) =
        max 0 (1 - |d - ((lo : ℚ) + (hi : ℚ)) / 2| / max 15 (((hi : ℚ) - (lo : ℚ)) / 2))) ∧
    (∀ w, dur_score w none = 0) ∧
    (∀ d, dur_score none d = 0) ∧
    dur_score (some (45, 75)) (some 60) = 1 ∧
    dur_score (some (45, 75)) (some 75) = 0 ∧
    dur_score (some (45, 75)) (some 90) = 0 ∧
    dur_score (some (45, 75)) (some (105 / 2)) = 1 / 2 := by
  refine ⟨fun lo hi d => rfl, fun w => by rcases w with _ | ⟨lo, hi⟩ <;> rfl, fun d => rfl,
    ?_, ?_, ?_, ?_⟩ <;> norm_num [dur_score, abs]

/-- C5: a candidate survives the keyword gate exactly when it was in the
input and either the extracted keyword list is empty (the gate is inert)
or its concatenated searchable text contains at least one extracted term
as a substring. -/
theorem C5_keyword_gate (q : String) (rows : List RankedRow) (rr : RankedRow) :
    rr ∈ keywordGate (strong_terms_from_query q) rows ↔
      rr ∈ rows ∧ (strong_terms_from_query q = [] ∨
        ∃ kw ∈ strong_terms_from_query q,
          containsSub kw.data (rowText rr.record).data = true) := by
  unfold keywordGate
  split
  · next h =>
    have h0 : strong_terms_from_query q = [] := by simpa using h
    simp [h0]
  · next h =>
    have hne : ¬strong_terms_from_query q = [] := by simpa using h
    rw [List.mem_filter]
    constructor
    · rintro ⟨hmem, htrue⟩
      exact ⟨hmem, Or.inr (by simpa [on_topic, List.any_eq_true] using htrue)⟩
    · rintro ⟨hmem, h0 | hex⟩
      · exact absurd h0 hne
      · exact ⟨hmem, by simpa [on_topic, List.any_eq_true] using hex⟩

/-- C6: the fused ranking key is exactly `0.85 × similarity +
0.15 × duration_fit`, and it is monotone in each argument with the other
held fixed. -/
theorem C6_fusion_monotonicity :
    (∀ s d : ℚ, finalScore s d = (0.85 : ℚ) * s + (0.15 : ℚ) * d) ∧
    (∀ s1 s2 d : ℚ, s1 ≤ s2 → finalScore s1 d ≤ finalScore s2 d) ∧
    (∀ s d1 d2 : ℚ, d1 ≤ d2 → finalScore s d1 ≤ finalScore s d2) := by
  refine ⟨fun s d => rfl, fun s1 s2 d h => ?_, fun s d1 d2 h => ?_⟩ <;>
  · unfold finalScore
    nlinarith

/-- C6 witness: concrete monotonicity instances. -/
theorem C6_fusion_monotonicity_witness :
    finalScore 0 1 ≤ finalScore 1 1 ∧ finalScore 1 0 ≤ finalScore 1 1 :=
  ⟨C6_fusion_monotonicity.2.1 0 1 1 (by norm_num),
   C6_fusion_monotonicity.2.2 1 0 1 (by norm_num)⟩

/-- C8 counterexample: `topk = 0` is replaced by the default 10 (Python
`inp.topk or 10` treats 0 as falsy), which is not the clamp of 0 into
`[1, 10]` (that clamp is 1). -/
theorem C8_topk_zero_not_clamped :
    clampTopk 0 = 10 ∧ clampTopk 0 ≠ max 1 (min 10 (0 : Int)) := by
  constructor <;> norm_num [clampTopk]

/-- C8 (amended): an empty or whitespace-only query is rejected with a
bad-request error regardless of the bundle or embedding registry; a zero
`top_k` becomes the default 10; every nonzero `top_k` is clamped into
`[1, 10]`; and the recovered value always lies in `[1, 10]`. -/
theorem C8_amended_boundary :
    (∀ (encodeOf : String → String → List ℚ) (bundle : IndexBundle) (query : String)
      (topk0 : Int), pyStrip query = "" →
        recommend encodeOf bundle query topk0 = .error 400) ∧
    (∀ k : Int, k ≠ 0 → clampTopk k = max 1 (min 10 k)) ∧
    (∀ k : Int, 1 ≤ clampTopk k ∧ clampTopk k ≤ 10) ∧
    clampTopk 0 = 10 := by
  refine ⟨fun encodeOf bundle query topk0 h => ?_, fun k hk => ?_, fun k => ?_, by norm_num [clampTopk]⟩
  · simp [recommend, h]
  · unfold clampTopk
    rw [if_neg hk]
  · unfold clampTopk
    constructor
    · exact le_max_left _ _
    · split <;> omega

/-- C8 amended witness: a whitespace query is rejected with 400 and a
negative `top_k` is clamped to 1. -/
theorem C8_amended_boundary_witness :
    recommend (fun _ _ => []) emptyBundle "   " 5 = .error 400 ∧ clampTopk (-3) = 1 := by
  constructor
  · exact C8_amended_boundary.1 _ emptyBundle "   " 5 (by decide)
  · rw [C8_amended_boundary.2.1 (-3) (by decide)]
    norm_num

/-- C9: for any bundle produced by the builder, the loaded metadata table is
the catalog and the loaded index holds the embedding of each record's
synthesized document at that record's own position (row alignment); and
round-tripping a record through build then search — querying with any text
whose embedding makes record `i` the strict inner-product maximizer, in
particular the record's own document — returns that record's fields with
its similarity score as the first result. -/
theorem C9_row_alignment_roundtrip
    (encodeOf : String → String → List ℚ) (render : ℚ → String) (name : String)
    (catalog : List CatalogRow) (saved : SavedBundle) (i k : Nat) (query : String)
    (hbuild : buildArtifacts encodeOf render name catalog = .ok saved)
    (hi : i < catalog.length)
    (hmax : ∀ j, j < catalog.length → j ≠ i →
      dot (encodeOf name query) (encodeOf name (build_doc render (catalog.getD j defaultRow))) <
        dot (encodeOf name query) (encodeOf name (build_doc render (catalog.getD i defaultRow))))
    (hk : 1 ≤ k) :
    (load_index saved name).meta = catalog ∧
    (load_index saved name).index.xb =
      catalog.map (fun r => encodeOf name (build_doc render r)) ∧
    (searchRows encodeOf (load_index saved name) query k).head? =
      some { record := catalog.getD i defaultRow,
             similarity := dot (encodeOf name query)
               (encodeOf name (build_doc render (catalog.getD i defaultRow))) } := by
  obtain ⟨hmeta, hxb⟩ := buildArtifacts_ok hbuild
  refine ⟨hmeta, hxb, ?_⟩
  unfold searchRows
  rw [List.head?_map]
  have hlen : i < (catalog.map fun r => encodeOf name (build_doc render r)).length := by
    simpa using hi
  have hmax2 : ∀ j, j < (catalog.map fun r => encodeOf name (build_doc render r)).length →
      j ≠ i →
      dot (encodeOf name query)
          ((catalog.map fun r => encodeOf name (build_doc render r)).getD j []) <
        dot (encodeOf name query)
          ((catalog.map fun r => encodeOf name (build_doc render r)).getD i []) := by
    intro j hj hne
    rw [getD_map_of_lt _ _ j (by simpa using hj) defaultRow,
        getD_map_of_lt _ _ i hi defaultRow]
    exact hmax j (by simpa using hj) hne
  have hhead := faissTopk_head (q := encodeOf name query) (k := k) hlen hk hmax2
  have hbxb : (load_index saved name).index.xb =
      catalog.map fun r => encodeOf name (build_doc render r) := hxb
  rw [show encodeOf (load_index saved name).model query = encodeOf name query from rfl,
    hbxb, hhead]
  have hrec : ilocRow (load_index saved name).meta ((i : Nat) : Int) =
      catalog.getD i defaultRow := by
    unfold ilocRow
    rw [if_pos (Int.natCast_nonneg i)]
    have h2 : ((i : Nat) : Int).toNat = i := by omega
    rw [h2]
    exact congrArg (fun l => List.getD l i defaultRow) hmeta
  have hsim : (catalog.map fun r => encodeOf name (build_doc render r)).getD i [] =
      encodeOf name (build_doc render (catalog.getD i defaultRow)) :=
    getD_map_of_lt _ _ i hi defaultRow _
  simp only [Option.map_some']
  rw [hsim, hrec]

/-- C9 witness: a two-record catalog is built and searched with the first
record's own document as the query; the first result is that record with
similarity 1. -/
theorem C9_row_alignment_roundtrip_witness :
    (searchRows encTwo (load_index savedTwo "m") (build_doc renderQ rowA) 1).head? =
      some { record := rowA, similarity := 1 } := by
  have hdocs : ¬(build_doc renderQ rowB = build_doc renderQ rowA) := by decide
  have h := (C9_row_alignment_roundtrip encTwo renderQ "m" [rowA, rowB] savedTwo 0 1
    (build_doc renderQ rowA) rfl (by norm_num)
    (by
      intro j hj hne
      have hj2 : j < 2 := by simpa using hj
      interval_cases j
      · exact absurd rfl hne
      · norm_num [encTwo, hdocs, dot])
    le_rfl).2.2
  rw [h]
  norm_num [encTwo, dot]

/-- C10: every row in a successful `recommend` response is drawn from the
pool returned by the vector search stage at `4 × top_k`; a record outside
that pool can never appear in the output. -/
theorem C10_pool_bound
    (encodeOf : String → String → List ℚ) (bundle : IndexBundle) (query : String)
    (topk0 : Int) (rows : List RankedRow) (rr : RankedRow)
    (hok : recommend encodeOf bundle query topk0 = .ok rows)
    (hmem : rr ∈ rows) :
    rr ∈ searchRows encodeOf bundle (pyStrip query) ((clampTopk topk0).toNat * 4) := by
  unfold recommend search at hok
  by_cases hq : pyStrip query = ""
  · rw [if_pos hq] at hok
    exact absurd hok (by simp)
  rw [if_neg hq] at hok
  dsimp only at hok
  by_cases hd : (encodeOf bundle.model (pyStrip query)).length = bundle.index.d
  · rw [if_pos hd] at hok
    dsimp only at hok
    rw [Except.ok.injEq] at hok
    subst hok
    obtain ⟨p, hp, hpr⟩ := List.mem_map.mp hmem
    have hp2 := List.take_subset _ _ hp
    have hp3 := (List.perm_insertionSort finRel _).mem_iff.mp hp2
    obtain ⟨p1, hp1, hp1e⟩ := List.mem_map.mp hp3
    obtain ⟨r1, hr1, hr1e⟩ := List.mem_map.mp hp1
    have hrr : rr = r1 := by rw [← hpr, ← hp1e, ← hr1e]
    rw [hrr]
    exact keywordGate_subset _ _ hr1
  · rw [if_neg hd] at hok
    dsimp only at hok
    exact absurd hok (by simp)

/-- C10 witness: a concrete run of `recommend` whose single result row is a
member of the 4·top_k search pool. -/
theorem C10_pool_bound_witness :
    ({ record := rowA, similarity := 1 } : RankedRow) ∈
      searchRows encOne (load_index savedOne "m") (pyStrip "lorem ipsum")
        ((clampTopk 1).toNat * 4) := by
  have hok : recommend encOne (load_index savedOne "m") "lorem ipsum" 1 =
      .ok [{ record := rowA, similarity := 1 }] := by
    have h0 : ¬(("lorem ipsum" : String) = "") := by decide
    have h1 : pyStrip "lorem ipsum" = "lorem ipsum" := by decide
    have h2 : strong_terms_from_query "lorem ipsum" = [] := by decide
    have h3 : extract_duration_window "lorem ipsum" = none := by decide
    have h4 : clampTopk 1 = 1 := by decide
    norm_num [recommend, h0, h1, h2, h3, h4, search, searchRows, faissTopk, simList, dot,
      List.range_succ, List.insertionSort, List.orderedInsert, ilocRow, load_index,
      savedOne, encOne, keywordGate, dur_score, finalScore, sortFinalDesc, finRel, fltMax]
  exact C10_pool_bound encOne (load_index savedOne "m") "lorem ipsum" 1 _ _ hok
    (List.mem_singleton.mpr rfl)

end SHL
